import Mathlib

/-!
Verification of the Academic Term Resolution & Progression Engine of the
darololomMIS repository against its specification.

The development shallowly embeds the relevant Python code:
* `src/core/forms.py`: `_persian_to_ascii`, `_jalali_to_gregorian`,
  `_gregorian_to_jalali`, `_parse_birth_date`;
* `src/core/views.py`: `_gregorian_to_jalali` (the second, independent copy),
  `_ensure_reference_data`, `_auto_promote_student`, `_can_graduate_ebtedai`,
  `student_promote_to_moteseta`.

Python integers are embedded as `Int`; Python `//` and `%` (floor division and
floor modulus, which for the positive divisors used here coincide with
`Int.fdiv` and `Int.emod`) are embedded as `pydiv` and `pymod`.
-/

namespace DarololomMIS

/-- Python `//` (floor division) as used in this code base: every divisor in
the transcribed code is a positive literal, and for a positive divisor floor
division coincides with Euclidean division, which is `Int`'s `/`. -/
def pydiv (a b : Int) : Int := a / b

/-- Python `%`: for a positive divisor the result is the representative in
`[0, b)`, which is `Int`'s `%` (`Int.emod`). -/
def pymod (a b : Int) : Int := a % b

/-! ## Calendar converter (src/core/forms.py lines 16-65, src/core/views.py lines 28-60) -/

/-- Gregorian leap rule as written inline in `_jalali_to_gregorian`
(forms.py line 36): `(gy % 4 == 0 and gy % 100 != 0) or (gy % 400 == 0)`. -/
def gregLeap (gy : Int) : Bool :=
  (pymod gy 4 == 0 && pymod gy 100 != 0) || pymod gy 400 == 0

/-- The `sal_a` month-length table of forms.py line 36, indexed `1..12`
(index `0` is the unused padding entry, modelled as `0`), parameterized by the
leap flag the Python list comprehension bakes in. -/
def salB (leap : Bool) : Nat → Int
  | 1 => 31
  | 2 => if leap then 29 else 28
  | 3 => 31
  | 4 => 30
  | 5 => 31
  | 6 => 30
  | 7 => 31
  | 8 => 31
  | 9 => 30
  | 10 => 31
  | 11 => 30
  | 12 => 31
  | _ => 0

/-- The `sal_a` table as the source writes it, indexed by the year. -/
def salA (gy : Int) (m : Nat) : Int := salB (gregLeap gy) m

/-- The `while gm <= 12 and gd > sal_a[gm]` loop of forms.py lines 37-40.
The loop index `gm` starts at `1` and strictly increases, so it runs at most
12 times; the fuel argument `12` makes that bound explicit. -/
def monthFixAux (leap : Bool) : Nat → Nat → Int → Nat × Int
  | 0, gm, gd => (gm, gd)
  | fuel + 1, gm, gd =>
    if gm ≤ 12 && gd > salB leap gm then
      monthFixAux leap fuel (gm + 1) (gd - salB leap gm)
    else
      (gm, gd)

/-- The day count built by `_jalali_to_gregorian` (forms.py lines 17-22): the
value of `days` just before the Gregorian decomposition starts. -/
def jalaliDayNumber (jy0 jm jd : Int) : Int :=
  let jy := jy0 + 1595
  let days0 := -355668 + (365 * jy) + (pydiv jy 33) * 8 + pydiv (pymod jy 33 + 3) 4 + jd
  if jm < 7 then days0 + (jm - 1) * 31 else days0 + ((jm - 7) * 30) + 186

/-- The year/day-of-year cascade of `_jalali_to_gregorian` (forms.py lines
23-35): decomposes a day count into the Gregorian year and the 1-based day of
the year (`gd` just before the month loop). -/
def gregYearDoy (days1 : Int) : Int × Int :=
  let gyA := 400 * pydiv days1 146097
  let daysA := pymod days1 146097
  let gyB := if daysA > 36524 then gyA + 100 * pydiv (daysA - 1) 36524 else gyA
  let daysB :=
    if daysA > 36524 then
      let d := pymod (daysA - 1) 36524
      if d ≥ 365 then d + 1 else d
    else daysA
  let gyC := gyB + 4 * pydiv daysB 1461
  let daysC := pymod daysB 1461
  let gyD := if daysC > 365 then gyC + pydiv (daysC - 1) 365 else gyC
  let daysD := if daysC > 365 then pymod (daysC - 1) 365 else daysC
  (gyD, daysD + 1)

/-- The month loop of `_jalali_to_gregorian` (forms.py lines 36-41) applied to
the output of the cascade; returns the full Gregorian triple.  `gm` may end at
`13` when the day count overflows the year, exactly as in the Python loop (in
which case the caller's `datetime.date` constructor rejects the triple). -/
def gregFromDays (days1 : Int) : Int × Int × Int :=
  let p := gregYearDoy days1
  let r := monthFixAux (gregLeap p.1) 12 1 p.2
  (p.1, ((r.1 : Nat) : Int), r.2)

/-- `_jalali_to_gregorian` (forms.py lines 16-41): build the day count, then
decompose it into a Gregorian date. -/
def jalaliToGregorian (jy0 jm jd : Int) : Int × Int × Int :=
  gregFromDays (jalaliDayNumber jy0 jm jd)

/-- The `g_d_m` cumulative-day table shared by both `_gregorian_to_jalali`
copies, accessed as `g_d_m[gm - 1]` for `gm` in `1..12`. -/
def gdm : Nat → Int
  | 1 => 0
  | 2 => 31
  | 3 => 59
  | 4 => 90
  | 5 => 120
  | 6 => 151
  | 7 => 181
  | 8 => 212
  | 9 => 243
  | 10 => 273
  | 11 => 304
  | 12 => 334
  | _ => 0

/-- The day count built by forms.py's `_gregorian_to_jalali` (lines 45-55).
`gmIdx` is the index used into `g_d_m` (equal to the month for the wrappers
below). -/
def gregDayNumber (gy gm0 gd : Int) (gmIdx : Nat) : Int :=
  let gy2 := if gm0 > 2 then gy + 1 else gy
  355666 + (365 * gy) + pydiv (gy2 + 3) 4 - pydiv (gy2 + 99) 100
    + pydiv (gy2 + 399) 400 + gd + gdm gmIdx

/-- The year/day-of-year cascade shared by both `_gregorian_to_jalali` copies
(forms.py lines 56-62, views.py lines 47-53): `base` is the initial `jy`
(`-1595` in forms.py; `979` or `0` in views.py). -/
def jalaliYearDoy (base days0 : Int) : Int × Int :=
  let jyA := base + 33 * pydiv days0 12053
  let daysA := pymod days0 12053
  let jyB := jyA + 4 * pydiv daysA 1461
  let daysB := pymod daysA 1461
  let jyC := if daysB > 365 then jyB + pydiv (daysB - 1) 365 else jyB
  let daysC := if daysB > 365 then pymod (daysB - 1) 365 else daysB
  (jyC, daysC)

/-- The Jalali month/day read-off shared by both `_gregorian_to_jalali` copies
(forms.py lines 63-65, views.py lines 54-59). -/
def jalaliFromDays (base days0 : Int) : Int × Int × Int :=
  let p := jalaliYearDoy base days0
  let jm := if p.2 < 186 then 1 + pydiv p.2 31 else 7 + pydiv (p.2 - 186) 30
  let jd := if p.2 < 186 then 1 + pymod p.2 31 else 1 + pymod (p.2 - 186) 30
  (p.1, jm, jd)

/-- `_gregorian_to_jalali` as defined in src/core/forms.py lines 44-65
(single day count with offset `355666` and base `jy = -1595`). -/
def gregorianToJalaliForms (gy gm0 gd : Int) (gmIdx : Nat) : Int × Int × Int :=
  jalaliFromDays (-1595) (gregDayNumber gy gm0 gd gmIdx)

/-- The day count of views.py's `_gregorian_to_jalali` (lines 37-46), applied
after the epoch shift of lines 31-36: note the `- 80` offset in place of
forms.py's `+ 355666`. -/
def gregDayNumberViews (gy gm0 gd : Int) (gmIdx : Nat) : Int :=
  let gy2 := if gm0 > 2 then gy + 1 else gy
  365 * gy + pydiv (gy2 + 3) 4 - pydiv (gy2 + 99) 100
    + pydiv (gy2 + 399) 400 - 80 + gd + gdm gmIdx

/-- `_gregorian_to_jalali` as defined in src/core/views.py lines 28-60: epoch
split at `gy > 1600` (base `jy = 979`, year shifted by 1600) versus the early
branch (base `jy = 0`, year shifted by 621). -/
def gregorianToJalaliViews (gy0 gm0 gd : Int) (gmIdx : Nat) : Int × Int × Int :=
  if gy0 > 1600 then jalaliFromDays 979 (gregDayNumberViews (gy0 - 1600) gm0 gd gmIdx)
  else jalaliFromDays 0 (gregDayNumberViews (gy0 - 621) gm0 gd gmIdx)

/-- Convenience wrapper of `gregorianToJalaliForms` on `Nat` components of a
calendar date (month in `1..12`), supplying the table index. -/
def g2jForms (gy gm gd : Nat) : Int × Int × Int :=
  gregorianToJalaliForms (gy : Int) (gm : Int) (gd : Int) gm

/-- Convenience wrapper of `gregorianToJalaliViews` on `Nat` components. -/
def g2jViews (gy gm gd : Nat) : Int × Int × Int :=
  gregorianToJalaliViews (gy : Int) (gm : Int) (gd : Int) gm

/-- Jalali-to-Gregorian on `Nat` components (wrapper of `jalaliToGregorian`). -/
def j2g (jy jm jd : Nat) : Int × Int × Int :=
  jalaliToGregorian (jy : Int) (jm : Int) (jd : Int)

/-- Number of days in a Gregorian month (per the `sal_a` table of the code). -/
def gregMonthLength (gy : Int) (m : Nat) : Int := salA gy m

/-- Calendrical validity of a Gregorian `(y, m, d)` triple for `Nat`
components: month in `1..12`, day within the month. -/
def gregValidN (y m d : Nat) : Bool :=
  1 ≤ m && m ≤ 12 && 1 ≤ d && (d : Int) ≤ gregMonthLength (y : Int) m

/-- Number of days in a Jalali month, derived from the converter's own day
arithmetic: the distance from the first day of the month to the first day of
the next month. -/
def jalaliMonthLength (jy jm : Int) : Int :=
  if jm = 12 then jalaliDayNumber (jy + 1) 1 1 - jalaliDayNumber jy 12 1
  else jalaliDayNumber jy (jm + 1) 1 - jalaliDayNumber jy jm 1

/-- Calendrical validity of a Jalali `(jy, jm, jd)` triple for `Nat`
components. -/
def jalaliValidN (jy jm jd : Nat) : Bool :=
  1 ≤ jm && jm ≤ 12 && 1 ≤ jd && (jd : Int) ≤ jalaliMonthLength (jy : Int) (jm : Int)

/-! ### Day-scale lemmas for the round-trip and equivalence proofs -/

/-- Rebuilding the day count from a decomposed Jalali date recovers the input
shifted by the constant `355667` (the offset between the two converters' day
scales).  Holds for every integer day count. -/
theorem jalaliDayNumber_jalaliFromDays (n : Int) :
    jalaliDayNumber (jalaliFromDays (-1595) n).1 (jalaliFromDays (-1595) n).2.1
      (jalaliFromDays (-1595) n).2.2 = n - 355667 := by
  simp only [jalaliFromDays, jalaliYearDoy, jalaliDayNumber, pydiv, pymod]
  split_ifs <;> omega
/-- Core characterization of the shared year/day-of-year cascade on a day
count written in 33-year-cycle coordinates inside one cycle: `b` four-year
blocks, `s` year in block, `t` day of year.  Each quotient of the cascade is
forced by the explicit bounds. -/
theorem jalaliYearDoy_core (base b s t : Int)
    (hs0 : 0 ≤ s) (hs3 : s ≤ 3) (hb0 : 0 ≤ b) (hw : 4 * b + s ≤ 32)
    (ht1 : 1 ≤ t) (ht2 : t ≤ 365 ∨ (t = 366 ∧ s = 0 ∧ b ≤ 7)) :
    jalaliYearDoy base (1461 * b + 365 * s + (if 1 ≤ s then 1 else 0) + t - 1)
      = (base + 4 * b + s, t - 1) := by
  simp only [jalaliYearDoy, pydiv, pymod]
  rcases le_or_lt 1 s with hs1 | hs1
  · rw [if_pos hs1]
    generalize hgen : 1461 * b + 365 * s + 1 + t - 1 = n
    have h1 : n % 12053 = n := by omega
    have h2 : n / 12053 = 0 := by omega
    have h3 : n % 12053 % 1461 = 365 * s + t := by rw [h1]; omega
    have h4 : n % 12053 / 1461 = b := by rw [h1]; omega
    rw [h2, h4, h3]
    simp only [Prod.mk.injEq]
    split_ifs with hgt
    · constructor <;> omega
    · constructor <;> omega
  · rw [if_neg (show ¬ (1 ≤ s) by omega)]
    generalize hgen : 1461 * b + 365 * s + 0 + t - 1 = n
    have h1 : n % 12053 = n := by omega
    have h2 : n / 12053 = 0 := by omega
    have h3 : n % 12053 % 1461 = t - 1 := by rw [h1]; omega
    have h4 : n % 12053 / 1461 = b := by rw [h1]; omega
    rw [h2, h4, h3]
    simp only [Prod.mk.injEq]
    split_ifs with hgt
    · constructor <;> omega
    · constructor <;> omega

/-- Core characterization of the Jalali decomposition on a day count written
in cycle coordinates inside one cycle, with month and day made explicit. -/
theorem jalaliFromDays_core (base b s jm jd : Int)
    (hs0 : 0 ≤ s) (hs3 : s ≤ 3) (hb0 : 0 ≤ b) (hw : 4 * b + s ≤ 32)
    (hm1 : 1 ≤ jm) (hm2 : jm ≤ 12) (hd1 : 1 ≤ jd)
    (hd2 : jd ≤ (if jm < 7 then 31 else if jm < 12 then 30
      else 29 + (if s = 0 ∧ b ≤ 7 then 1 else 0))) :
    jalaliFromDays base
      (1461 * b + 365 * s + (if 1 ≤ s then 1 else 0)
        + (jd + (if jm < 7 then (jm - 1) * 31 else (jm - 7) * 30 + 186)) - 1)
      = (base + 4 * b + s, jm, jd) := by
  have hcore := jalaliYearDoy_core base b s
    (jd + (if jm < 7 then (jm - 1) * 31 else (jm - 7) * 30 + 186))
    hs0 hs3 hb0 hw (by split_ifs <;> omega)
    (by
      split_ifs at hd2 ⊢ with hj7 hj12 hsb
      · exact Or.inl (by omega)
      · exact Or.inl (by omega)
      · rcases le_or_lt jd 29 with h | h
        · exact Or.inl (by omega)
        · exact Or.inr ⟨by omega, hsb.1, hsb.2⟩
      · exact Or.inl (by omega))
  simp only [jalaliFromDays, hcore, pydiv, pymod, Prod.mk.injEq]
  refine ⟨trivial, ?_, ?_⟩ <;> split_ifs at hd2 ⊢ <;> omega

/-- Shifting a day count by whole 33-year cycles shifts the decomposed year by
33 per cycle and leaves month and day unchanged. -/
theorem jalaliFromDays_shift2 (base a n : Int) :
    jalaliFromDays base (12053 * a + n) =
      ((jalaliFromDays base n).1 + 33 * a, (jalaliFromDays base n).2.1,
        (jalaliFromDays base n).2.2) := by
  simp only [jalaliFromDays, jalaliYearDoy, pydiv, pymod, Prod.mk.injEq]
  have h1 : (12053 * a + n) % 12053 = n % 12053 := by omega
  rw [h1]
  refine ⟨by omega, rfl, rfl⟩

/-- The base year enters the decomposition only additively in the year
component. -/
theorem jalaliFromDays_baseShift (base c n : Int) :
    jalaliFromDays (base + c) n =
      ((jalaliFromDays base n).1 + c, (jalaliFromDays base n).2.1,
        (jalaliFromDays base n).2.2) := by
  simp only [jalaliFromDays, jalaliYearDoy, Prod.mk.injEq, true_and, and_true]
  split_ifs <;> ring

/-- Decomposing the day count built from a calendrically valid Jalali date
(shifted onto the decomposition's day scale) recovers that date. -/
theorem jalaliFromDays_jalaliDayNumber (jy jm jd : Int)
    (hm1 : 1 ≤ jm) (hm2 : jm ≤ 12) (hd1 : 1 ≤ jd)
    (hd2 : jd ≤ jalaliMonthLength jy jm) :
    jalaliFromDays (-1595) (jalaliDayNumber jy jm jd + 355667) = (jy, jm, jd) := by
  obtain ⟨a, w, hw, hw0, hw1⟩ : ∃ a w, jy + 1595 = 33 * a + w ∧ 0 ≤ w ∧ w < 33 :=
    ⟨(jy + 1595) / 33, (jy + 1595) % 33, by omega, by omega, by omega⟩
  obtain ⟨b, s, hbs, hs0, hs3, hb0⟩ : ∃ b s, w = 4 * b + s ∧ 0 ≤ s ∧ s ≤ 3 ∧ 0 ≤ b :=
    ⟨w / 4, w % 4, by omega, by omega, by omega, by omega⟩
  have hwle : 4 * b + s ≤ 32 := by omega
  have g1 : (jy + 1595) / 33 = a := by omega
  have e1 : (jy + 1595) % 33 = 4 * b + s := by omega
  have e2 : ((jy + 1595) % 33 + 3) / 4 = b + (if 1 ≤ s then 1 else 0) := by
    rw [e1]; split_ifs <;> omega
  have hML : jalaliMonthLength jy jm = (if jm < 7 then 31 else if jm < 12 then 30
      else 29 + (if s = 0 ∧ b ≤ 7 then 1 else 0)) := by
    rcases eq_or_ne (4 * b + s) 32 with h32 | h32
    · have f1 : (jy + 1 + 1595) / 33 = a + 1 := by omega
      have f2 : ((jy + 1 + 1595) % 33 + 3) / 4 = 0 := by
        have : (jy + 1 + 1595) % 33 = 0 := by omega
        rw [this]; decide
      simp only [jalaliMonthLength, jalaliDayNumber, pydiv, pymod]
      rw [f1, f2] at *
      split_ifs at e2 ⊢ <;> omega
    · have f1 : (jy + 1 + 1595) / 33 = a := by omega
      have f2 : ((jy + 1 + 1595) % 33 + 3) / 4 = b + 1 := by
        have : (jy + 1 + 1595) % 33 = 4 * b + s + 1 := by omega
        rw [this]; omega
      simp only [jalaliMonthLength, jalaliDayNumber, pydiv, pymod]
      rw [f1, f2] at *
      split_ifs at e2 ⊢ <;> omega
  rw [hML] at hd2
  have hX : jalaliDayNumber jy jm jd + 355667 =
      12053 * a + (1461 * b + 365 * s + (if 1 ≤ s then 1 else 0)
        + (jd + (if jm < 7 then (jm - 1) * 31 else (jm - 7) * 30 + 186)) - 1) := by
    simp only [jalaliDayNumber, pydiv, pymod]
    rw [g1, e2]
    split_ifs <;> omega
  rw [hX, jalaliFromDays_shift2,
    jalaliFromDays_core (-1595) b s jm jd hs0 hs3 hb0 hwle hm1 hm2 hd1 hd2]
  have hy : -1595 + 4 * b + s + 33 * a = jy := by omega
  simp only [hy]

/-- No month of the Jalali calendar, as measured by the converter's own day
arithmetic, is longer than 31 days. -/
theorem jalaliMonthLength_le_31 (jy jm : Int) : jalaliMonthLength jy jm ≤ 31 := by
  obtain ⟨q, w, hqw, hw0, hw1⟩ : ∃ q w, jy + 1595 = 33 * q + w ∧ 0 ≤ w ∧ w < 33 :=
    ⟨(jy + 1595) / 33, (jy + 1595) % 33, by omega, by omega, by omega⟩
  obtain ⟨q2, w2, hqw2, hw20, hw21⟩ :
      ∃ q2 w2, jy + 1 + 1595 = 33 * q2 + w2 ∧ 0 ≤ w2 ∧ w2 < 33 :=
    ⟨(jy + 1 + 1595) / 33, (jy + 1 + 1595) % 33, by omega, by omega, by omega⟩
  have g1 : (jy + 1595) / 33 = q := by omega
  have g2 : (jy + 1595) % 33 = w := by omega
  have g3 : (jy + 1 + 1595) / 33 = q2 := by omega
  have g4 : (jy + 1 + 1595) % 33 = w2 := by omega
  simp only [jalaliMonthLength, jalaliDayNumber, pydiv, pymod]
  rw [g1, g2, g3, g4]
  split_ifs <;> omega

/-- The day count of a Jalali date in the working year range 1280-1477 lies in
the window `[694326, 767009]` on which the Gregorian decomposition and
recomposition are mutually inverse. -/
theorem jalaliDayNumber_range (jy jm jd : Int)
    (hy1 : 1280 ≤ jy) (hy2 : jy ≤ 1477) (hm1 : 1 ≤ jm) (hm2 : jm ≤ 12)
    (hd1 : 1 ≤ jd) (hd31 : jd ≤ 31) :
    694326 ≤ jalaliDayNumber jy jm jd ∧ jalaliDayNumber jy jm jd ≤ 767009 := by
  obtain ⟨q, w, hqw, hw0, hw1⟩ : ∃ q w, jy + 1595 = 33 * q + w ∧ 0 ≤ w ∧ w < 33 :=
    ⟨(jy + 1595) / 33, (jy + 1595) % 33, by omega, by omega, by omega⟩
  have g1 : (jy + 1595) / 33 = q := by omega
  have g2 : (jy + 1595) % 33 = w := by omega
  simp only [jalaliDayNumber, pydiv, pymod]
  rw [g1, g2]
  constructor <;> split_ifs <;> omega

/-- Core characterization of the Gregorian year/day-of-year cascade for years
1901-1999 (`b` four-year blocks past 1900, `c` year in block, `t` day of
year): the quadricentennial quotient is pinned at 4 and the centennial branch
fires, inserting the phantom day. -/
theorem gregYearDoy_coreA (b c t : Int)
    (hc0 : 0 ≤ c) (hc3 : c ≤ 3) (hb0 : 0 ≤ b) (hk1 : 1 ≤ 4 * b + c) (hk99 : 4 * b + c ≤ 99)
    (ht1 : 1 ≤ t) (ht2 : t ≤ 365 ∨ (t = 366 ∧ c = 0)) :
    gregYearDoy (693961 + 1461 * b + 365 * c + (if 1 ≤ c then 0 else -1) + t - 1)
      = (1900 + 4 * b + c, t) := by
  simp only [gregYearDoy, pydiv, pymod]
  rcases le_or_lt 1 c with hc1 | hc1
  · rw [if_pos hc1]
    generalize hgen : 693961 + 1461 * b + 365 * c + 0 + t - 1 = n
    have h1 : n / 146097 = 4 := by omega
    have h2 : n % 146097 = n - 584388 := by omega
    rw [h1, h2]
    rw [if_pos (show n - 584388 > 36524 by omega)]
    have h3 : (n - 584388 - 1) / 36524 = 3 := by omega
    have h4 : (n - 584388 - 1) % 36524 = n - 693961 := by omega
    rw [h3, h4]
    rw [if_pos (show n - 693961 ≥ 365 by omega)]
    have h5 : (n - 693961 + 1) / 1461 = b := by omega
    have h6 : (n - 693961 + 1) % 1461 = 365 * c + t := by omega
    rw [h5, h6]
    rw [if_pos (show 365 * c + t > 365 by omega)]
    have h7 : (365 * c + t - 1) / 365 = c := by omega
    have h8 : (365 * c + t - 1) % 365 = t - 1 := by omega
    rw [h7, h8]
    simp only [Prod.mk.injEq]
    omega
  · rw [if_neg (show ¬ (1 ≤ c) by omega)]
    generalize hgen : 693961 + 1461 * b + 365 * c + -1 + t - 1 = n
    have h1 : n / 146097 = 4 := by omega
    have h2 : n % 146097 = n - 584388 := by omega
    rw [h1, h2]
    rw [if_pos (show n - 584388 > 36524 by omega)]
    have h3 : (n - 584388 - 1) / 36524 = 3 := by omega
    have h4 : (n - 584388 - 1) % 36524 = n - 693961 := by omega
    rw [h3, h4]
    rw [if_pos (show n - 693961 ≥ 365 by omega)]
    have h5 : (n - 693961 + 1) / 1461 = b := by omega
    have h6 : (n - 693961 + 1) % 1461 = t - 1 := by omega
    rw [h5, h6]
    rw [if_neg (show ¬ (t - 1 > 365) by omega)]
    simp only [Prod.mk.injEq]
    omega

/-- Core characterization of the Gregorian cascade for years 2000-2099: the
quadricentennial quotient is pinned at 5 and the centennial branch does not
fire. -/
theorem gregYearDoy_coreB (b c t : Int)
    (hc0 : 0 ≤ c) (hc3 : c ≤ 3) (hb0 : 0 ≤ b) (hk99 : 4 * b + c ≤ 99)
    (ht1 : 1 ≤ t) (ht2 : t ≤ 365 ∨ (t = 366 ∧ c = 0)) :
    gregYearDoy (730485 + 1461 * b + 365 * c + (if 1 ≤ c then 1 else 0) + t - 1)
      = (2000 + 4 * b + c, t) := by
  simp only [gregYearDoy, pydiv, pymod]
  rcases le_or_lt 1 c with hc1 | hc1
  · rw [if_pos hc1]
    generalize hgen : 730485 + 1461 * b + 365 * c + 1 + t - 1 = n
    have h1 : n / 146097 = 5 := by omega
    have h2 : n % 146097 = n - 730485 := by omega
    rw [h1, h2]
    rw [if_neg (show ¬ (n - 730485 > 36524) by omega)]
    have h5 : (n - 730485) / 1461 = b := by omega
    have h6 : (n - 730485) % 1461 = 365 * c + t := by omega
    rw [h5, h6]
    rw [if_pos (show 365 * c + t > 365 by omega)]
    have h7 : (365 * c + t - 1) / 365 = c := by omega
    have h8 : (365 * c + t - 1) % 365 = t - 1 := by omega
    rw [h7, h8]
    simp only [Prod.mk.injEq]
    omega
  · rw [if_neg (show ¬ (1 ≤ c) by omega)]
    generalize hgen : 730485 + 1461 * b + 365 * c + 0 + t - 1 = n
    have h1 : n / 146097 = 5 := by omega
    have h2 : n % 146097 = n - 730485 := by omega
    rw [h1, h2]
    rw [if_neg (show ¬ (n - 730485 > 36524) by omega)]
    have h5 : (n - 730485) / 1461 = b := by omega
    have h6 : (n - 730485) % 1461 = t - 1 := by omega
    rw [h5, h6]
    rw [if_neg (show ¬ (t - 1 > 365) by omega)]
    simp only [Prod.mk.injEq]
    omega

set_option maxRecDepth 40000 in
/-- The month loop inverts the day-of-year formula `g_d_m[m-1] + d (+ 1 in
leap years past February)`: exhaustive check over months and days. -/
theorem monthFix_back : ∀ (leap : Bool) (m : Fin 13) (d : Fin 32),
    1 ≤ (m : Nat) → 1 ≤ (d : Nat) → (((d : Nat) : Int) ≤ salB leap m) →
    monthFixAux leap 12 1 (gdm m + ((d : Nat) : Int) + (if 2 < (m : Nat) ∧ leap = true then 1 else 0))
      = ((m : Nat), ((d : Nat) : Int)) ∧
    1 ≤ gdm m + ((d : Nat) : Int) + (if 2 < (m : Nat) ∧ leap = true then 1 else 0) ∧
    gdm m + ((d : Nat) : Int) + (if 2 < (m : Nat) ∧ leap = true then 1 else 0)
      ≤ 365 + (if leap = true then 1 else 0) := by
  intro leap
  cases leap <;> decide

set_option maxRecDepth 40000 in
/-- The month loop sends every day of the year to a valid month/day pair whose
day-of-year formula recovers the input: exhaustive check over days. -/
theorem monthFix_fwd : ∀ (leap : Bool) (t : Fin 367), 1 ≤ (t : Nat) →
    (((t : Nat) : Int) ≤ 365 + (if leap = true then 1 else 0)) →
    (1 ≤ (monthFixAux leap 12 1 ((t : Nat) : Int)).1 ∧
     (monthFixAux leap 12 1 ((t : Nat) : Int)).1 ≤ 12 ∧
     1 ≤ (monthFixAux leap 12 1 ((t : Nat) : Int)).2 ∧
     (monthFixAux leap 12 1 ((t : Nat) : Int)).2
        ≤ salB leap (monthFixAux leap 12 1 ((t : Nat) : Int)).1 ∧
     gdm (monthFixAux leap 12 1 ((t : Nat) : Int)).1 + (monthFixAux leap 12 1 ((t : Nat) : Int)).2 +
       (if 2 < (monthFixAux leap 12 1 ((t : Nat) : Int)).1 ∧ leap = true then 1 else 0)
         = ((t : Nat) : Int)) := by
  intro leap
  cases leap <;> decide

/-- Every year of 1901-2099 divisible by 4 is leap under the code's rule (2000
is divisible by 400; no other century year occurs in the range). -/
theorem gregLeap_true (y : Int) (h1 : 1901 ≤ y) (h2 : y ≤ 2099) (h4 : y % 4 = 0) :
    gregLeap y = true := by
  simp only [gregLeap, pymod, Bool.or_eq_true, Bool.and_eq_true, beq_iff_eq, bne_iff_ne]
  rcases eq_or_ne y 2000 with rfl | hne
  · exact Or.inr (by decide)
  · exact Or.inl ⟨h4, by omega⟩

/-- Every year of 1901-2099 not divisible by 4 is non-leap under the code's
rule. -/
theorem gregLeap_false (y : Int) (h1 : 1901 ≤ y) (h2 : y ≤ 2099) (h4 : y % 4 ≠ 0) :
    gregLeap y = false := by
  have : ¬ (gregLeap y = true) := by
    simp only [gregLeap, pymod, Bool.or_eq_true, Bool.and_eq_true, beq_iff_eq, bne_iff_ne]
    rintro (⟨ha, -⟩ | hb)
    · exact h4 ha
    · omega
  simpa using this

/-- Every entry of the month-length table is at most 31. -/
theorem salB_le_31 (leap : Bool) (m : Nat) : salB leap m ≤ 31 := by
  rw [salB.eq_def]
  split <;> omega

/-- Decomposing the (scale-shifted) day count of a valid Gregorian date of
1901-2099 recovers that date. -/
theorem gregFromDays_gregDayNumber (y : Int) (m d : Nat)
    (hy1 : 1901 ≤ y) (hy2 : y ≤ 2099) (hm1 : 1 ≤ m) (hm2 : m ≤ 12)
    (hd1 : 1 ≤ d) (hd2 : ((d : Nat) : Int) ≤ salB (gregLeap y) m) :
    gregFromDays (gregDayNumber y (m : Int) (d : Int) m - 355667)
      = (y, ((m : Nat) : Int), ((d : Nat) : Int)) := by
  have hleap4 : y % 4 = 0 → gregLeap y = true := fun h => gregLeap_true y hy1 hy2 h
  have hleapn : y % 4 ≠ 0 → gregLeap y = false := fun h => gregLeap_false y hy1 hy2 h
  rcases le_or_lt y 1999 with hz | hz
  · obtain ⟨b, c, hbc, hc0, hc3, hb0⟩ :
        ∃ b c, y = 1900 + 4 * b + c ∧ 0 ≤ c ∧ c ≤ 3 ∧ 0 ≤ b :=
      ⟨(y - 1900) / 4, (y - 1900) % 4, by omega, by omega, by omega, by omega⟩
    have hk1 : 1 ≤ 4 * b + c := by omega
    have hk99 : 4 * b + c ≤ 99 := by omega
    rcases eq_or_ne c 0 with hc | hc
    · have hleap : gregLeap y = true := hleap4 (by omega)
      rw [hleap] at hd2
      have hmf := monthFix_back true ⟨m, by omega⟩
        ⟨d, by have := salB_le_31 true m; omega⟩
        (by simpa using hm1) (by simpa using hd1) (by simpa using hd2)
      simp only [Fin.val_mk, eq_self_iff_true, and_true] at hmf
      obtain ⟨hfix, ht1, ht2⟩ := hmf
      have ht2x : gdm m + (d : Int) + (if 2 < m then 1 else 0) ≤ 365 ∨
          (gdm m + (d : Int) + (if 2 < m then 1 else 0) = 366 ∧ c = 0) := by
        rcases le_or_lt (gdm m + (d : Int) + (if 2 < m then 1 else 0)) 365 with h | h
        · exact Or.inl h
        · exact Or.inr ⟨by omega, hc⟩
      have hGN : gregDayNumber y (m : Int) (d : Int) m - 355667
          = 693961 + 1461 * b + 365 * c + (if 1 ≤ c then 0 else -1)
            + (gdm m + (d : Int) + (if 2 < m then 1 else 0)) - 1 := by
        simp only [gregDayNumber, pydiv, pymod]
        split_ifs <;> omega
      rw [hGN]
      simp only [gregFromDays]
      rw [gregYearDoy_coreA b c (gdm m + (d : Int) + (if 2 < m then 1 else 0))
        hc0 hc3 hb0 hk1 hk99 ht1 ht2x]
      rw [← hbc, hleap]
      simp only [hfix]
    · have hleap : gregLeap y = false := hleapn (by omega)
      rw [hleap] at hd2
      have hmf := monthFix_back false ⟨m, by omega⟩
        ⟨d, by have := salB_le_31 false m; omega⟩
        (by simpa using hm1) (by simpa using hd1) (by simpa using hd2)
      simp only [Fin.val_mk, Bool.false_eq_true, and_false, if_false] at hmf
      obtain ⟨hfix, ht1, ht2⟩ := hmf
      have ht2x : gdm m + (d : Int) + 0 ≤ 365 ∨
          (gdm m + (d : Int) + 0 = 366 ∧ c = 0) := Or.inl (by omega)
      have hGN : gregDayNumber y (m : Int) (d : Int) m - 355667
          = 693961 + 1461 * b + 365 * c + (if 1 ≤ c then 0 else -1)
            + (gdm m + (d : Int) + 0) - 1 := by
        simp only [gregDayNumber, pydiv, pymod]
        split_ifs <;> omega
      rw [hGN]
      simp only [gregFromDays]
      rw [gregYearDoy_coreA b c (gdm m + (d : Int) + 0)
        hc0 hc3 hb0 hk1 hk99 ht1 ht2x]
      rw [← hbc, hleap]
      simp only [hfix]
  · obtain ⟨b, c, hbc, hc0, hc3, hb0⟩ :
        ∃ b c, y = 2000 + 4 * b + c ∧ 0 ≤ c ∧ c ≤ 3 ∧ 0 ≤ b :=
      ⟨(y - 2000) / 4, (y - 2000) % 4, by omega, by omega, by omega, by omega⟩
    have hk99 : 4 * b + c ≤ 99 := by omega
    rcases eq_or_ne c 0 with hc | hc
    · have hleap : gregLeap y = true := hleap4 (by omega)
      rw [hleap] at hd2
      have hmf := monthFix_back true ⟨m, by omega⟩
        ⟨d, by have := salB_le_31 true m; omega⟩
        (by simpa using hm1) (by simpa using hd1) (by simpa using hd2)
      simp only [Fin.val_mk, eq_self_iff_true, and_true] at hmf
      obtain ⟨hfix, ht1, ht2⟩ := hmf
      have ht2x : gdm m + (d : Int) + (if 2 < m then 1 else 0) ≤ 365 ∨
          (gdm m + (d : Int) + (if 2 < m then 1 else 0) = 366 ∧ c = 0) := by
        rcases le_or_lt (gdm m + (d : Int) + (if 2 < m then 1 else 0)) 365 with h | h
        · exact Or.inl h
        · exact Or.inr ⟨by omega, hc⟩
      have hGN : gregDayNumber y (m : Int) (d : Int) m - 355667
          = 730485 + 1461 * b + 365 * c + (if 1 ≤ c then 1 else 0)
            + (gdm m + (d : Int) + (if 2 < m then 1 else 0)) - 1 := by
        simp only [gregDayNumber, pydiv, pymod]
        split_ifs <;> omega
      rw [hGN]
      simp only [gregFromDays]
      rw [gregYearDoy_coreB b c (gdm m + (d : Int) + (if 2 < m then 1 else 0))
        hc0 hc3 hb0 hk99 ht1 ht2x]
      rw [← hbc, hleap]
      simp only [hfix]
    · have hleap : gregLeap y = false := hleapn (by omega)
      rw [hleap] at hd2
      have hmf := monthFix_back false ⟨m, by omega⟩
        ⟨d, by have := salB_le_31 false m; omega⟩
        (by simpa using hm1) (by simpa using hd1) (by simpa using hd2)
      simp only [Fin.val_mk, Bool.false_eq_true, and_false, if_false] at hmf
      obtain ⟨hfix, ht1, ht2⟩ := hmf
      have ht2x : gdm m + (d : Int) + 0 ≤ 365 ∨
          (gdm m + (d : Int) + 0 = 366 ∧ c = 0) := Or.inl (by omega)
      have hGN : gregDayNumber y (m : Int) (d : Int) m - 355667
          = 730485 + 1461 * b + 365 * c + (if 1 ≤ c then 1 else 0)
            + (gdm m + (d : Int) + 0) - 1 := by
        simp only [gregDayNumber, pydiv, pymod]
        split_ifs <;> omega
      rw [hGN]
      simp only [gregFromDays]
      rw [gregYearDoy_coreB b c (gdm m + (d : Int) + 0)
        hc0 hc3 hb0 hk99 ht1 ht2x]
      rw [← hbc, hleap]
      simp only [hfix]

/-- Rebuilding the day count from a decomposed day count in the working window
recovers it, shifted back onto the Jalali converter's day scale. -/
theorem gregDayNumber_gregFromDays (n : Int) (hlo : 694326 ≤ n) (hhi : n ≤ 767009) :
    gregDayNumber (gregFromDays n).1 (gregFromDays n).2.1 (gregFromDays n).2.2
      ((gregFromDays n).2.1.toNat) = n + 355667 := by
  rcases le_or_lt n 730484 with hz | hz
  · rcases le_or_lt ((n - 693960) % 1461) 365 with hr | hr
    · obtain ⟨b, t, hb1, hb24, ht1, ht366, hn⟩ :
          ∃ b t, 1 ≤ b ∧ b ≤ 24 ∧ 1 ≤ t ∧ t ≤ 366 ∧
            n = 693961 + 1461 * b + 365 * 0 + (if (1:Int) ≤ 0 then 0 else -1) + t - 1 := by
        refine ⟨(n - 693960) / 1461, (n - 693960) % 1461 + 1, by omega, by omega, by omega,
          by omega, ?_⟩
        rw [if_neg (by norm_num)]
        omega
      have hcore := gregYearDoy_coreA b 0 t (by norm_num) (by norm_num) (by omega)
        (by omega) (by omega) ht1 (by rcases le_or_lt t 365 with h | h
                                      · exact Or.inl h
                                      · exact Or.inr ⟨by omega, rfl⟩)
      have hleap : gregLeap (1900 + 4 * b + 0) = true :=
        gregLeap_true _ (by omega) (by omega) (by omega)
      have htn : ((t.toNat : Nat) : Int) = t := Int.toNat_of_nonneg (by omega)
      have hmf := monthFix_fwd true ⟨t.toNat, by omega⟩ (by simp; omega)
        (by simp only [Fin.val_mk]; rw [htn]; simp; omega)
      simp only [Fin.val_mk, eq_self_iff_true, and_true] at hmf
      rw [htn] at hmf
      simp only [gregFromDays, hn, hcore, hleap]
      obtain ⟨hf1, hf2, hf3, hf4, hf5⟩ := hmf
      simp only [gregDayNumber, pydiv, pymod, Int.toNat_natCast]
      split_ifs at hf5 ⊢ <;> omega
    · obtain ⟨b, c, t, hb0, hb24, hc1, hc3, ht1, ht365, hn⟩ :
          ∃ b c t, 0 ≤ b ∧ b ≤ 24 ∧ 1 ≤ c ∧ c ≤ 3 ∧ 1 ≤ t ∧ t ≤ 365 ∧
            n = 693961 + 1461 * b + 365 * c + (if (1:Int) ≤ c then 0 else -1) + t - 1 := by
        refine ⟨(n - 693960) / 1461, ((n - 693960) % 1461 - 1) / 365,
          ((n - 693960) % 1461 - 1) % 365 + 1, by omega, by omega, by omega, by omega,
          by omega, by omega, ?_⟩
        rw [if_pos (by omega)]
        omega
      have hcore := gregYearDoy_coreA b c t (by omega) (by omega) (by omega)
        (by omega) (by omega) ht1 (Or.inl ht365)
      have hleap : gregLeap (1900 + 4 * b + c) = false :=
        gregLeap_false _ (by omega) (by omega) (by omega)
      have htn : ((t.toNat : Nat) : Int) = t := Int.toNat_of_nonneg (by omega)
      have hmf := monthFix_fwd false ⟨t.toNat, by omega⟩ (by simp; omega)
        (by simp only [Fin.val_mk]; rw [htn]; simp; omega)
      simp only [Fin.val_mk, Bool.false_eq_true, and_false, if_false] at hmf
      rw [htn] at hmf
      simp only [gregFromDays, hn, hcore, hleap]
      obtain ⟨hf1, hf2, hf3, hf4, hf5⟩ := hmf
      simp only [gregDayNumber, pydiv, pymod, Int.toNat_natCast]
      split_ifs <;> omega
  · rcases le_or_lt ((n - 730485) % 1461) 365 with hr | hr
    · obtain ⟨b, t, hb0, hb24, ht1, ht366, hn⟩ :
          ∃ b t, 0 ≤ b ∧ b ≤ 24 ∧ 1 ≤ t ∧ t ≤ 366 ∧
            n = 730485 + 1461 * b + 365 * 0 + (if (1:Int) ≤ 0 then 1 else 0) + t - 1 := by
        refine ⟨(n - 730485) / 1461, (n - 730485) % 1461 + 1, by omega, by omega, by omega,
          by omega, ?_⟩
        rw [if_neg (by norm_num)]
        omega
      have hcore := gregYearDoy_coreB b 0 t (by norm_num) (by norm_num) (by omega)
        (by omega) ht1 (by rcases le_or_lt t 365 with h | h
                           · exact Or.inl h
                           · exact Or.inr ⟨by omega, rfl⟩)
      have hleap : gregLeap (2000 + 4 * b + 0) = true :=
        gregLeap_true _ (by omega) (by omega) (by omega)
      have htn : ((t.toNat : Nat) : Int) = t := Int.toNat_of_nonneg (by omega)
      have hmf := monthFix_fwd true ⟨t.toNat, by omega⟩ (by simp; omega)
        (by simp only [Fin.val_mk]; rw [htn]; simp; omega)
      simp only [Fin.val_mk, eq_self_iff_true, and_true] at hmf
      rw [htn] at hmf
      simp only [gregFromDays, hn, hcore, hleap]
      obtain ⟨hf1, hf2, hf3, hf4, hf5⟩ := hmf
      simp only [gregDayNumber, pydiv, pymod, Int.toNat_natCast]
      split_ifs at hf5 ⊢ <;> omega
    · obtain ⟨b, c, t, hb0, hb24, hc1, hc3, ht1, ht365, hn⟩ :
          ∃ b c t, 0 ≤ b ∧ b ≤ 24 ∧ 1 ≤ c ∧ c ≤ 3 ∧ 1 ≤ t ∧ t ≤ 365 ∧
            n = 730485 + 1461 * b + 365 * c + (if (1:Int) ≤ c then 1 else 0) + t - 1 := by
        refine ⟨(n - 730485) / 1461, ((n - 730485) % 1461 - 1) / 365,
          ((n - 730485) % 1461 - 1) % 365 + 1, by omega, by omega, by omega, by omega,
          by omega, by omega, ?_⟩
        rw [if_pos (by omega)]
        omega
      have hcore := gregYearDoy_coreB b c t (by omega) (by omega) (by omega)
        (by omega) ht1 (Or.inl ht365)
      have hleap : gregLeap (2000 + 4 * b + c) = false :=
        gregLeap_false _ (by omega) (by omega) (by omega)
      have htn : ((t.toNat : Nat) : Int) = t := Int.toNat_of_nonneg (by omega)
      have hmf := monthFix_fwd false ⟨t.toNat, by omega⟩ (by simp; omega)
        (by simp only [Fin.val_mk]; rw [htn]; simp; omega)
      simp only [Fin.val_mk, Bool.false_eq_true, and_false, if_false] at hmf
      rw [htn] at hmf
      simp only [gregFromDays, hn, hcore, hleap]
      obtain ⟨hf1, hf2, hf3, hf4, hf5⟩ := hmf
      simp only [gregDayNumber, pydiv, pymod, Int.toNat_natCast]
      split_ifs <;> omega

/-! ### Claim theorems C9 and C10 -/

/-- C9: For every valid Gregorian date in the supported range 1901-2099,
converting with forms.py's `_gregorian_to_jalali` and back with
`_jalali_to_gregorian` returns the original date; and for every valid Jalali
date in the corresponding range 1280-1477, converting with
`_jalali_to_gregorian` and back with `_gregorian_to_jalali` returns the
original date. -/
theorem calendar_roundtrip (gy gm gd jy jm jd : Nat)
    (hgv : gregValidN gy gm gd = true) (hgy1 : 1901 ≤ gy) (hgy2 : gy ≤ 2099)
    (hjv : jalaliValidN jy jm jd = true) (hjy1 : 1280 ≤ jy) (hjy2 : jy ≤ 1477) :
    jalaliToGregorian (g2jForms gy gm gd).1 (g2jForms gy gm gd).2.1
        (g2jForms gy gm gd).2.2 = ((gy : Int), (gm : Int), (gd : Int)) ∧
    gregorianToJalaliForms (j2g jy jm jd).1 (j2g jy jm jd).2.1 (j2g jy jm jd).2.2
        ((j2g jy jm jd).2.1.toNat) = ((jy : Int), (jm : Int), (jd : Int)) := by
  simp only [gregValidN, Bool.and_eq_true, decide_eq_true_eq, gregMonthLength, salA] at hgv
  obtain ⟨⟨⟨hm1, hm2⟩, hd1⟩, hd2⟩ := hgv
  simp only [jalaliValidN, Bool.and_eq_true, decide_eq_true_eq] at hjv
  obtain ⟨⟨⟨hjm1, hjm2⟩, hjd1⟩, hjd2⟩ := hjv
  constructor
  · simp only [g2jForms, gregorianToJalaliForms, jalaliToGregorian]
    rw [jalaliDayNumber_jalaliFromDays]
    exact gregFromDays_gregDayNumber (gy : Int) gm gd (by exact_mod_cast hgy1)
      (by exact_mod_cast hgy2) hm1 hm2 hd1 hd2
  · have hjmI1 : (1 : Int) ≤ (jm : Int) := by exact_mod_cast hjm1
    have hjmI2 : (jm : Int) ≤ 12 := by exact_mod_cast hjm2
    have hjdI1 : (1 : Int) ≤ (jd : Int) := by exact_mod_cast hjd1
    have hjd31 : (jd : Int) ≤ 31 := le_trans hjd2 (jalaliMonthLength_le_31 _ _)
    have hrange := jalaliDayNumber_range (jy : Int) (jm : Int) (jd : Int)
      (by exact_mod_cast hjy1) (by exact_mod_cast hjy2) hjmI1 hjmI2 hjdI1 hjd31
    simp only [j2g, jalaliToGregorian, gregorianToJalaliForms]
    rw [gregDayNumber_gregFromDays _ hrange.1 hrange.2]
    exact jalaliFromDays_jalaliDayNumber (jy : Int) (jm : Int) (jd : Int)
      hjmI1 hjmI2 hjdI1 hjd2

/-- Witness for C9 at Gregorian 2021-03-21 and Jalali 1400-01-01. -/
theorem calendar_roundtrip_witness :
    jalaliToGregorian (g2jForms 2021 3 21).1 (g2jForms 2021 3 21).2.1
        (g2jForms 2021 3 21).2.2
      = (((2021 : Nat) : Int), ((3 : Nat) : Int), ((21 : Nat) : Int)) ∧
    gregorianToJalaliForms (j2g 1400 1 1).1 (j2g 1400 1 1).2.1 (j2g 1400 1 1).2.2
        ((j2g 1400 1 1).2.1.toNat)
      = (((1400 : Nat) : Int), ((1 : Nat) : Int), ((1 : Nat) : Int)) :=
  calendar_roundtrip 2021 3 21 1400 1 1 (by decide) (by decide) (by decide)
    (by decide) (by decide) (by decide)

/-- C10: views.py's `_gregorian_to_jalali` (epoch split at year 1600, base year
979) and forms.py's `_gregorian_to_jalali` (single day count, base year -1595)
return the same Jalali triple for every valid Gregorian date of the supported
range 1901-2099. -/
theorem converters_agree (gy gm gd : Nat)
    (_hv : gregValidN gy gm gd = true) (hy1 : 1901 ≤ gy) (hy2 : gy ≤ 2099) :
    g2jViews gy gm gd = g2jForms gy gm gd := by
  have hgt : ((gy : Int)) > 1600 := by
    have : (1901 : Int) ≤ (gy : Int) := by exact_mod_cast hy1
    omega
  simp only [g2jViews, g2jForms, gregorianToJalaliViews, gregorianToJalaliForms, if_pos hgt]
  have hDF : gregDayNumber (gy : Int) (gm : Int) (gd : Int) gm
      = 12053 * 78 + gregDayNumberViews ((gy : Int) - 1600) (gm : Int) (gd : Int) gm := by
    simp only [gregDayNumber, gregDayNumberViews, pydiv, pymod]
    split_ifs <;> omega
  rw [hDF, jalaliFromDays_shift2]
  have h979 : (979 : Int) = -1595 + 2574 := by norm_num
  rw [h979, jalaliFromDays_baseShift]
  norm_num

/-- Witness for C10 at Gregorian 2024-03-20. -/
theorem converters_agree_witness : g2jViews 2024 3 20 = g2jForms 2024 3 20 :=
  converters_agree 2024 3 20 (by decide) (by decide) (by decide)

/-! ## Birth-date parsing (src/core/forms.py lines 8-13 and 68-80) -/

/-- The Persian-digit table of `_persian_to_ascii` (forms.py lines 9-12):
Extended Arabic-Indic digits map to ASCII digits, every other character is
unchanged. -/
def persianDigitMap (c : Char) : Char :=
  if c = '۰' then '0'
  else if c = '۱' then '1'
  else if c = '۲' then '2'
  else if c = '۳' then '3'
  else if c = '۴' then '4'
  else if c = '۵' then '5'
  else if c = '۶' then '6'
  else if c = '۷' then '7'
  else if c = '۸' then '8'
  else if c = '۹' then '9'
  else c

/-- ASCII whitespace stripped by Python's `str.strip` (the inputs of interest
contain no other Unicode whitespace). -/
def isPySpace (c : Char) : Bool :=
  c = ' ' || c = Char.ofNat 9 || c = Char.ofNat 10 || c = Char.ofNat 13
    || c = Char.ofNat 11 || c = Char.ofNat 12

/-- Python `str.strip()` on a character list: drop whitespace at both ends. -/
def pyStrip (s : List Char) : List Char :=
  ((s.dropWhile isPySpace).reverse.dropWhile isPySpace).reverse

/-- The separator normalization of forms.py line 72: `-` and `.` both become
`/`, character by character. -/
def sepNorm (c : Char) : Char :=
  if c = '-' then '/' else if c = '.' then '/' else c

/-- Python `str.split` at `/`: every maximal (possibly empty) run between
slashes, in order. -/
def splitSlash (s : List Char) : List (List Char) :=
  s.foldr (fun c acc =>
    if c = '/' then [] :: acc
    else
      match acc with
      | [] => [[c]]
      | a :: rest => (c :: a) :: rest) [[]]

/-- Digit-run scanner of Python `int()`: decimal digits with single
underscores allowed strictly between digits.  `prevDigit` records whether the
previous character was a digit. -/
def digitsCore : List Char → Nat → Bool → Option Nat
  | [], acc, prevDigit => if prevDigit then some acc else none
  | c :: rest, acc, prevDigit =>
    if c = '_' then
      if prevDigit then digitsCore rest acc false else none
    else if '0' ≤ c && c ≤ '9' then
      digitsCore rest (acc * 10 + (c.toNat - 48)) true
    else none

/-- Python `int(str)` on ASCII decimal input: surrounding whitespace, an
optional sign, then digits; `none` models the `ValueError`. -/
def pyInt (s : List Char) : Option Int :=
  match pyStrip s with
  | '+' :: rest => (digitsCore rest 0 false).map fun n => (n : Int)
  | '-' :: rest => (digitsCore rest 0 false).map fun n => -(n : Int)
  | t => (digitsCore t 0 false).map fun n => (n : Int)

/-- Outcome of the component-extraction prefix of `_parse_birth_date`
(forms.py lines 69-75): blank input, malformed input, or three parsed
integers. -/
inductive PreParse
  | empty
  | bad
  | parts3 (y m d : Int)
deriving DecidableEq

/-- Component extraction of `_parse_birth_date` (forms.py lines 69-75):
digit-normalize, strip, bail out on blank, normalize separators, split,
drop empty parts, demand exactly three, convert each with `int`. -/
def preParse (s : List Char) : PreParse :=
  let raw := pyStrip (List.map persianDigitMap s)
  if raw = [] then .empty
  else
    match (splitSlash (List.map sepNorm raw)).filter (fun p => !p.isEmpty) with
    | [p1, p2, p3] =>
      match pyInt p1, pyInt p2, pyInt p3 with
      | some y, some m, some d => .parts3 y m d
      | _, _, _ => .bad
    | _ => .bad

/-- Result of `_parse_birth_date`: `None`, a raised `ValueError`, or a
constructed `datetime.date`. -/
inductive ParseOut
  | noValue
  | invalid
  | okDate (y m d : Int)
deriving DecidableEq

/-- Validity check of Python's `datetime.date(y, m, d)` constructor:
year in 1..9999, month in 1..12, day within the proleptic-Gregorian month
(the leap rule of `datetime` coincides with `gregLeap`). -/
def pyDateValid (y m d : Int) : Bool :=
  1 ≤ y && y ≤ 9999 && 1 ≤ m && m ≤ 12 && 1 ≤ d && d ≤ salB (gregLeap y) m.toNat

/-- The year-1700 heuristic of forms.py lines 76-79: a year at or above 1700
is taken as already Gregorian, anything below is converted from Jalali. -/
def canonicalOf (y m d : Int) : Int × Int × Int :=
  if 1700 ≤ y then (y, m, d) else jalaliToGregorian y m d

/-- `_parse_birth_date` (forms.py lines 68-80): extract components, apply the
year heuristic, and construct the date, which fails exactly when the
`datetime.date` constructor would raise. -/
def parseBirthDate (s : List Char) : ParseOut :=
  match preParse s with
  | .empty => .noValue
  | .bad => .invalid
  | .parts3 y m d =>
    if pyDateValid (canonicalOf y m d).1 (canonicalOf y m d).2.1 (canonicalOf y m d).2.2
    then .okDate (canonicalOf y m d).1 (canonicalOf y m d).2.1 (canonicalOf y m d).2.2
    else .invalid

/-- C3 (amended): `_parse_birth_date` raises exactly when component extraction
fails on non-blank input (not exactly three numeric components) or the
resulting canonical Gregorian date is rejected by the `datetime.date`
constructor.  Local-calendar (Jalali) validity is never checked, and blank
input returns `None` rather than failing. -/
theorem parse_failure_iff (s : List Char) :
    parseBirthDate s = ParseOut.invalid ↔
      preParse s = PreParse.bad ∨
      ∃ y m d, preParse s = PreParse.parts3 y m d ∧
        pyDateValid (canonicalOf y m d).1 (canonicalOf y m d).2.1
          (canonicalOf y m d).2.2 = false := by
  cases hp : preParse s with
  | empty => simp [parseBirthDate, hp]
  | bad => simp [parseBirthDate, hp]
  | parts3 y m d =>
    simp only [parseBirthDate, hp]
    split_ifs with hv
    · simp [hv]
    · simp only [Bool.not_eq_true] at hv
      simp [hv]
      exact ⟨y, m, d, ⟨rfl, rfl, rfl⟩, hv⟩

/-- Counterexample to C3 as stated: the Jalali date 1402-12-30 is calendrically
invalid in the local calendar (month 12 of year 1402 has only 29 days), yet
`_parse_birth_date` accepts it and silently converts it to Gregorian
2024-03-20; a blank input likewise does not fail but returns `None`. -/
theorem parse_local_validity_unchecked :
    jalaliValidN 1402 12 30 = false ∧
    parseBirthDate (String.toList "1402/12/30") = ParseOut.okDate 2024 3 20 ∧
    parseBirthDate (String.toList "") = ParseOut.noValue := by
  refine ⟨by decide, by decide, by decide⟩

/-- C8: whenever the input parses into three numeric components, a year at or
above 1700 is taken as already canonical (the components are handed to the
date constructor unconverted), and a year at or below 1699 is converted from
the local calendar first. -/
theorem parse_year_1700_heuristic (s : List Char) (y m d : Int)
    (h : preParse s = PreParse.parts3 y m d) :
    (1700 ≤ y → parseBirthDate s =
      (if pyDateValid y m d then ParseOut.okDate y m d else ParseOut.invalid)) ∧
    (y ≤ 1699 → parseBirthDate s =
      (if pyDateValid (jalaliToGregorian y m d).1 (jalaliToGregorian y m d).2.1
          (jalaliToGregorian y m d).2.2
       then ParseOut.okDate (jalaliToGregorian y m d).1 (jalaliToGregorian y m d).2.1
          (jalaliToGregorian y m d).2.2
       else ParseOut.invalid)) := by
  constructor
  · intro h17
    simp [parseBirthDate, h, canonicalOf, h17]
  · intro h16
    have h17 : ¬ (1700 ≤ y) := by omega
    simp [parseBirthDate, h, canonicalOf, h17]

/-- Witness for C8 at the boundary: 1700-01-02 is taken as Gregorian
unchanged, while 1699-01-02 is converted (to Gregorian 2320-03-22). -/
theorem parse_year_1700_heuristic_witness :
    preParse (String.toList "1700/01/02") = PreParse.parts3 1700 1 2 ∧
    preParse (String.toList "1699/01/02") = PreParse.parts3 1699 1 2 ∧
    parseBirthDate (String.toList "1700/01/02") = ParseOut.okDate 1700 1 2 ∧
    parseBirthDate (String.toList "1699/01/02") = ParseOut.okDate 2320 3 22 := by
  refine ⟨by decide, by decide, ?_, ?_⟩
  · have h := (parse_year_1700_heuristic (String.toList "1700/01/02") 1700 1 2
      (by decide)).1 (by norm_num)
    rw [h]
    decide
  · have h := (parse_year_1700_heuristic (String.toList "1699/01/02") 1699 1 2
      (by decide)).2 (by norm_num)
    rw [h]
    decide

/-! ## Progression engine (src/core/views.py lines 63-83, 1024-1139, 1340-1367) -/

/-- Modelled from the spec: the three study-level codes created by
`_ensure_reference_data` (views.py lines 65-69); `models.StudyLevel` rows are
identified by these codes. -/
inductive LevelCode
  | aali
  | moteseta
  | ebtedai
deriving DecidableEq

/-- Modelled from the spec: a `models.SchoolClass` row as the progression code
reads it — its study level and its optional semester and period markers
(marker entities are identified by their `number`). -/
structure SchoolClass where
  level : Option LevelCode
  semester : Option Int
  period : Option Int
deriving DecidableEq

/-- Modelled from the spec: a `models.Student` row as the progression code
reads and writes it — explicit level, optional class group, the many-to-many
semester and period markers (by `number`), and the graduated flag. -/
structure Student where
  level : Option LevelCode
  school_class : Option SchoolClass
  semesters : List Int
  periods : List Int
  is_graduated : Bool
deriving DecidableEq

/-- Modelled from the spec: a `models.Subject` row — primary key, optional
study level (`None` acts as a wildcard), optional semester number and optional
period (by number). -/
structure Subject where
  id : Int
  level : Option LevelCode
  semester : Option Int
  period : Option Int
deriving DecidableEq

/-- Modelled from the spec: a `models.StudentScore` row of the student under
evaluation — the subject it grades and the nullable score. -/
structure StudentScore where
  subjectId : Int
  score : Option Int
deriving DecidableEq

/-- Modelled from the spec: the database state the progression code touches —
the subject table, the student's score rows, and the `Semester` and
`CoursePeriod` tables (each row identified by its `number`). -/
structure Env where
  subjects : List Subject
  scores : List StudentScore
  semesterNumbers : List Int
  periodNumbers : List Int
deriving DecidableEq

/-- `order_by('-number').first()` on a marker table: the greatest number. -/
def maxNumber : List Int → Option Int
  | [] => none
  | n :: rest =>
    match maxNumber rest with
    | none => some n
    | some m => some (max n m)

/-- `get_or_create` on a numbered table: append the number if absent. -/
def addIfMissing (l : List Int) (n : Int) : List Int :=
  if n ∈ l then l else l ++ [n]

/-- `_ensure_reference_data` (views.py lines 63-83): make sure semesters 1-4
and periods 1-6 exist (the three study levels are fixed in the model). -/
def ensureReferenceData (e : Env) : Env :=
  { e with
    semesterNumbers := [1, 2, 3, 4].foldl addIfMissing e.semesterNumbers,
    periodNumbers := [1, 2, 3, 4, 5, 6].foldl addIfMissing e.periodNumbers }

/-- The student's latest semester marker (views.py lines 1035-1037): greatest
of the student's own semester markers, else the class group's semester. -/
def latestSemester (st : Student) : Option Int :=
  match (if st.semesters ≠ [] then maxNumber st.semesters else none) with
  | some n => some n
  | none =>
    match st.school_class with
    | some sc => sc.semester
    | none => none

/-- The student's latest period marker (views.py lines 1038-1040). -/
def latestPeriod (st : Student) : Option Int :=
  match (if st.periods ≠ [] then maxNumber st.periods else none) with
  | some n => some n
  | none =>
    match st.school_class with
    | some sc => sc.period
    | none => none

/-- The explicitly assigned level (views.py line 1032): the student's own
level, else the class group's level. -/
def baseLevel (st : Student) : Option LevelCode :=
  match st.level with
  | some l => some l
  | none =>
    match st.school_class with
    | some sc => sc.level
    | none => none

/-- The effective level after the marker-based inference of views.py lines
1042-1046: a semester marker alone suggests `aali`; any period marker suggests
`moteseta` (which `_ensure_reference_data` guarantees to exist). -/
def effLevel (st : Student) : Option LevelCode :=
  match baseLevel st with
  | some l => some l
  | none =>
    if (latestSemester st).isSome && !(latestPeriod st).isSome then some .aali
    else if (latestPeriod st).isSome then some .moteseta
    else none

/-- The student's score rows on the resolved subjects (views.py line 1071):
`StudentScore.objects.filter(student=student, subject__in=subjects)`. -/
def scoresOn (e : Env) (subs : List Subject) : List StudentScore :=
  e.scores.filter (fun r => subs.any (fun s => s.id == r.subjectId))

/-- The `score__lt=50` failing-score test of views.py line 1076: a present
score strictly below 50 (a null score is caught by the preceding check). -/
def isFailingScore (r : StudentScore) : Bool :=
  match r.score with
  | some v => decide (v < 50)
  | none => false

/-- Level/term resolution and subject filtering of views.py lines 1047-1069:
the resolved level, the current term ordinal, and the subject rows of that
term at that level (a subject with null level matches any level). -/
def resolveSubjects (e : Env) (st : Student) : Option (LevelCode × Int × List Subject) :=
  match effLevel st with
  | none => none
  | some lv =>
    match lv with
    | .aali =>
      match latestSemester st with
      | none => none
      | some cur =>
        some (.aali, cur, e.subjects.filter (fun s =>
          s.semester == some cur && (s.level == some LevelCode.aali || s.level == none)))
    | _ =>
      match latestPeriod st with
      | none => none
      | some cur =>
        some (lv, cur, e.subjects.filter (fun s =>
          s.period == some cur && (s.level == some lv || s.level == none)))

/-- Outcome of `_auto_promote_student`: the `None` return, the graduation
message, or the promotion message carrying the new ordinal. -/
inductive Outcome
  | noAction
  | graduated
  | advanced (next : Int)
deriving DecidableEq

/-- `_auto_promote_student` (views.py lines 1024-1108) as a state transformer:
returns the outcome together with the updated student and database.  The
function returns in every branch; it raises nothing. -/
def autoPromoteStudent (e0 : Env) (st : Student) : Outcome × Student × Env :=
  let e := ensureReferenceData e0
  if st.is_graduated then (.noAction, st, e)
  else
    match resolveSubjects e st with
    | none => (.noAction, st, e)
    | some (lv, cur, subs) =>
      if subs.isEmpty then (.noAction, st, e)
      else
        let sq := scoresOn e subs
        if sq.length < subs.length then (.noAction, st, e)
        else if sq.any (fun r => r.score.isNone) then (.noAction, st, e)
        else if sq.any isFailingScore then (.noAction, st, e)
        else
          match lv with
          | .aali =>
            if cur ≥ 4 then (.graduated, { st with is_graduated := true }, e)
            else
              (.advanced (cur + 1),
                { st with semesters := [cur + 1], is_graduated := false },
                { e with semesterNumbers := addIfMissing e.semesterNumbers (cur + 1) })
          | _ =>
            if cur ≥ 6 then (.graduated, { st with is_graduated := true }, e)
            else
              (.advanced (cur + 1),
                { st with periods := [cur + 1], is_graduated := false },
                { e with periodNumbers := addIfMissing e.periodNumbers (cur + 1) })

/-- `_can_graduate_ebtedai` (views.py lines 1111-1139): eligibility test for
the crossover — effective level defaulting to `ebtedai`, latest period equal
to 6, a non-empty resolved subject set, complete score rows, no null score,
no score below 50. -/
def canGraduateEbtedai (e : Env) (st : Student) : Bool × Option Int :=
  let lv := match baseLevel st with
    | some l => l
    | none => .ebtedai
  if lv ≠ .ebtedai then (false, none)
  else
    match latestPeriod st with
    | none => (false, none)
    | some p =>
      if p ≠ 6 then (false, some p)
      else
        let subs := e.subjects.filter (fun s =>
          s.period == some p && (s.level == some LevelCode.ebtedai || s.level == none))
        if subs.isEmpty then (false, some p)
        else
          let sq := scoresOn e subs
          if sq.length < subs.length then (false, some p)
          else if sq.any (fun r => r.score.isNone) then (false, some p)
          else if sq.any isFailingScore then (false, some p)
          else (true, some p)

/-- `student_promote_to_moteseta` (views.py lines 1340-1367) as a state
transformer: on an eligible student, set level to `moteseta`, detach the class
group, clear the graduated flag, make Period 1 (created if absent) the sole
period marker, and clear all semester markers.  The Boolean reports whether
the promotion happened. -/
def studentPromoteToMoteseta (e0 : Env) (st : Student) : Bool × Student × Env :=
  let e := ensureReferenceData e0
  if !(canGraduateEbtedai e st).1 then (false, st, e)
  else
    (true,
      { st with
        level := some .moteseta
        school_class := none
        is_graduated := false
        periods := [1]
        semesters := [] },
      { e with periodNumbers := addIfMissing e.periodNumbers 1 })

/-- Whether the student has any score row for the subject (spec-side reading
of the completeness check). -/
def hasRecord (e : Env) (s : Subject) : Bool :=
  e.scores.any (fun r => r.subjectId == s.id)

/-- A present score of at least 50 (spec-side reading of the pass
condition). -/
def passingScore (r : StudentScore) : Bool :=
  match r.score with
  | some v => decide (50 ≤ v)
  | none => false

/-- The period-6 subjects visible to the `ebtedai` level (wildcard subjects
included), as filtered by `_can_graduate_ebtedai`. -/
def ebtedaiP6Subjects (e : Env) : List Subject :=
  e.subjects.filter (fun s => s.period == some (6 : Int) &&
    (s.level == some LevelCode.ebtedai || s.level == none))

/-- When every resolved subject has a score row and subject ids are unique,
the filtered score rows are at least as many as the subjects. -/
theorem complete_length (e : Env) (subs : List Subject)
    (hsubnd : (subs.map Subject.id).Nodup)
    (hcomplete : subs.all (hasRecord e) = true) :
    subs.length ≤ (scoresOn e subs).length := by
  rw [List.all_eq_true] at hcomplete
  have hsubset : subs.map Subject.id ⊆ (scoresOn e subs).map StudentScore.subjectId := by
    intro i hi
    rw [List.mem_map] at hi
    obtain ⟨s, hs, rfl⟩ := hi
    have h := hcomplete s hs
    simp only [hasRecord, List.any_eq_true, beq_iff_eq] at h
    obtain ⟨r, hr, hri⟩ := h
    rw [List.mem_map]
    refine ⟨r, ?_, hri⟩
    simp only [scoresOn, List.mem_filter]
    refine ⟨hr, ?_⟩
    rw [List.any_eq_true]
    exact ⟨s, hs, by simp [hri]⟩
  have hsp := List.subperm_of_subset hsubnd hsubset
  have hle := hsp.length_le
  simpa using hle

/-- When some resolved subject has no score row and score rows are unique
per subject, the filtered score rows are strictly fewer than the subjects. -/
theorem missing_length (e : Env) (subs : List Subject) (s : Subject)
    (hs : s ∈ subs)
    (hscnd : (e.scores.map StudentScore.subjectId).Nodup)
    (hmiss : ∀ r ∈ e.scores, r.subjectId ≠ s.id) :
    (scoresOn e subs).length < subs.length := by
  have hnd : ((scoresOn e subs).map StudentScore.subjectId).Nodup :=
    ((List.filter_sublist e.scores).map StudentScore.subjectId).nodup hscnd
  have hsubset : (scoresOn e subs).map StudentScore.subjectId ⊆
      (subs.map Subject.id).erase s.id := by
    intro i hi
    rw [List.mem_map] at hi
    obtain ⟨r, hr, rfl⟩ := hi
    simp only [scoresOn, List.mem_filter] at hr
    obtain ⟨hre, hany⟩ := hr
    rw [List.any_eq_true] at hany
    obtain ⟨s2, hs2, hbeq⟩ := hany
    have hid : s2.id = r.subjectId := by simpa using hbeq
    have hne : r.subjectId ≠ s.id := hmiss r hre
    rw [List.mem_erase_of_ne hne]
    rw [List.mem_map]
    exact ⟨s2, hs2, hid⟩
  have hmem : s.id ∈ subs.map Subject.id := List.mem_map_of_mem Subject.id hs
  have h1 : ((scoresOn e subs).map StudentScore.subjectId).length ≤
      ((subs.map Subject.id).erase s.id).length :=
    (List.subperm_of_subset hnd hsubset).length_le
  have h2 : ((subs.map Subject.id).erase s.id).length = (subs.map Subject.id).length - 1 :=
    List.length_erase_of_mem hmem
  have h3 : 0 < subs.length := List.length_pos_of_mem hs
  simp only [List.length_map] at h1 h2
  omega

/-- All-passing score rows trip neither the null-score filter nor the
below-50 filter. -/
theorem passes_checks (e : Env) (subs : List Subject)
    (hpass : (scoresOn e subs).all passingScore = true) :
    (scoresOn e subs).any (fun r => r.score.isNone) = false ∧
    (scoresOn e subs).any isFailingScore = false := by
  rw [List.all_eq_true] at hpass
  constructor
  · rw [List.any_eq_false]
    intro r hr
    have h := hpass r hr
    cases hv : r.score with
    | none => rw [passingScore, hv] at h; exact absurd h (by simp)
    | some v => simp [hv]
  · rw [List.any_eq_false]
    intro r hr
    have h := hpass r hr
    cases hv : r.score with
    | none => rw [passingScore, hv] at h; exact absurd h (by simp)
    | some v =>
      rw [passingScore, hv] at h
      simp only [decide_eq_true_eq] at h
      simp [isFailingScore, hv]
      omega

/-- If any of the three score checks fires, `_auto_promote_student` returns
`None` with no state change. -/
theorem autoPromote_noAction_of_check (e : Env) (st : Student) (lv : LevelCode)
    (cur : Int) (subs : List Subject)
    (hres : resolveSubjects (ensureReferenceData e) st = some (lv, cur, subs))
    (hchk : (scoresOn (ensureReferenceData e) subs).length < subs.length ∨
            (scoresOn (ensureReferenceData e) subs).any (fun r => r.score.isNone) = true ∨
            (scoresOn (ensureReferenceData e) subs).any isFailingScore = true) :
    autoPromoteStudent e st = (Outcome.noAction, st, ensureReferenceData e) := by
  simp only [autoPromoteStudent, hres]
  split_ifs <;> first | rfl | (rcases hchk with h | h | h <;> simp_all)


/-- C1 (amended): `_auto_promote_student` raises nothing; for a learner whose
effective level is upper (`aali`) but whose term marker is a Period (no
semester marker anywhere), it silently returns `None`, leaving the learner and
the database unchanged apart from reference-data seeding. -/
theorem aali_period_marker_silent (e : Env) (st : Student)
    (hlv : effLevel st = some LevelCode.aali)
    (_hper : (latestPeriod st).isSome = true)
    (hsem : latestSemester st = none) :
    autoPromoteStudent e st = (Outcome.noAction, st, ensureReferenceData e) := by
  have hres : resolveSubjects (ensureReferenceData e) st = none := by
    simp only [resolveSubjects, hlv, hsem]
  simp only [autoPromoteStudent, hres]
  split_ifs <;> rfl

/-- Witness for C1 on a concrete upper-level learner holding only Period 5. -/
theorem aali_period_marker_silent_witness :
    effLevel ⟨some LevelCode.aali, none, [], [5], false⟩ = some LevelCode.aali ∧
    (latestPeriod ⟨some LevelCode.aali, none, [], [5], false⟩).isSome = true ∧
    latestSemester ⟨some LevelCode.aali, none, [], [5], false⟩ = none ∧
    autoPromoteStudent ⟨[], [], [], []⟩ ⟨some LevelCode.aali, none, [], [5], false⟩ =
      (Outcome.noAction, ⟨some LevelCode.aali, none, [], [5], false⟩,
        ensureReferenceData ⟨[], [], [], []⟩) :=
  ⟨by decide, by decide, by decide,
    aali_period_marker_silent ⟨[], [], [], []⟩ ⟨some LevelCode.aali, none, [], [5], false⟩
      (by decide) (by decide) (by decide)⟩

/-- Counterexample to C1 as stated: an upper-level learner whose only term
marker is Period 3 gets the ordinary `None` outcome, not an
`InvalidLevelTermCombination` failure (no exception exists anywhere in the
function: it returns in every branch). -/
theorem aali_period_marker_counterexample :
    effLevel ⟨some LevelCode.aali, none, [], [3], false⟩ = some LevelCode.aali ∧
    latestPeriod ⟨some LevelCode.aali, none, [], [3], false⟩ = some 3 ∧
    autoPromoteStudent ⟨[], [], [], []⟩ ⟨some LevelCode.aali, none, [], [3], false⟩ =
      (Outcome.noAction, ⟨some LevelCode.aali, none, [], [3], false⟩,
        ⟨[], [], [1, 2, 3, 4], [1, 2, 3, 4, 5, 6]⟩) := by
  refine ⟨rfl, rfl, rfl⟩

/-- C2 (amended): with no explicit level and no class-group level, the
effective level is undetermined exactly when the learner holds no semester and
no period marker; only in that case does the evaluation refuse to act (`None`,
no state change).  Otherwise the level is inferred from the markers and
evaluation proceeds. -/
theorem undetermined_requires_no_markers (e : Env) (st : Student)
    (hb : baseLevel st = none) :
    (effLevel st = none ↔ latestSemester st = none ∧ latestPeriod st = none) ∧
    (latestSemester st = none → latestPeriod st = none →
      autoPromoteStudent e st = (Outcome.noAction, st, ensureReferenceData e)) := by
  constructor
  · simp only [effLevel, hb]
    cases hs : latestSemester st <;> cases hp : latestPeriod st <;> simp
  · intro hs hp
    have hres : resolveSubjects (ensureReferenceData e) st = none := by
      simp only [resolveSubjects, effLevel, hb, hs, hp]
      simp
    simp only [autoPromoteStudent, hres]
    split_ifs <;> rfl

/-- Witness for C2 on a learner with no level and no markers. -/
theorem undetermined_requires_no_markers_witness :
    (effLevel ⟨none, none, [], [], false⟩ = none ↔
      latestSemester ⟨none, none, [], [], false⟩ = none ∧
      latestPeriod ⟨none, none, [], [], false⟩ = none) ∧
    (latestSemester ⟨none, none, [], [], false⟩ = none →
      latestPeriod ⟨none, none, [], [], false⟩ = none →
      autoPromoteStudent ⟨[], [], [], []⟩ ⟨none, none, [], [], false⟩ =
        (Outcome.noAction, ⟨none, none, [], [], false⟩,
          ensureReferenceData ⟨[], [], [], []⟩)) :=
  undetermined_requires_no_markers ⟨[], [], [], []⟩ ⟨none, none, [], [], false⟩ (by decide)

/-- Counterexample to C2 as stated: a learner with no explicit level and no
class group but holding Period 2 does not yield `Undetermined` — the level is
inferred as `moteseta`, scores are evaluated, and the learner is advanced to
Period 3 with its markers rewritten. -/
theorem level_inference_counterexample :
    baseLevel ⟨none, none, [], [2], false⟩ = none ∧
    autoPromoteStudent ⟨[⟨1, none, none, some 2⟩], [⟨1, some 60⟩], [], []⟩
        ⟨none, none, [], [2], false⟩ =
      (Outcome.advanced 3, ⟨none, none, [], [3], false⟩,
        ⟨[⟨1, none, none, some 2⟩], [⟨1, some 60⟩], [1, 2, 3, 4], [1, 2, 3, 4, 5, 6]⟩) := by
  refine ⟨rfl, rfl⟩

/-- C4: once the term resolves to a subject list, if some resolved subject
has no score row, or some score row on them is null or below 50, the outcome
is Held: `_auto_promote_student` returns `None` and changes nothing.  The pass
boundary sits exactly at 50: a score of 49 trips the failing-score filter and
50 does not. -/
theorem held_on_missing_or_failing (e : Env) (st : Student) (lv : LevelCode)
    (cur : Int) (subs : List Subject)
    (hres : resolveSubjects (ensureReferenceData e) st = some (lv, cur, subs))
    (hscnd : (e.scores.map StudentScore.subjectId).Nodup)
    (hfail : (∃ s ∈ subs, ∀ r ∈ e.scores, r.subjectId ≠ s.id) ∨
             (∃ r ∈ scoresOn e subs, r.score = none) ∨
             (∃ r ∈ scoresOn e subs, isFailingScore r = true)) :
    autoPromoteStudent e st = (Outcome.noAction, st, ensureReferenceData e) ∧
    isFailingScore ⟨0, some 49⟩ = true ∧ isFailingScore ⟨0, some 50⟩ = false := by
  have hE : scoresOn (ensureReferenceData e) subs = scoresOn e subs := rfl
  refine ⟨?_, rfl, rfl⟩
  apply autoPromote_noAction_of_check e st lv cur subs hres
  rw [hE]
  rcases hfail with ⟨s, hs, hmiss⟩ | ⟨r, hr, hnull⟩ | ⟨r, hr, hlow⟩
  · exact Or.inl (missing_length e subs s hs hscnd hmiss)
  · refine Or.inr (Or.inl ?_)
    rw [List.any_eq_true]
    exact ⟨r, hr, by simp [hnull]⟩
  · exact Or.inr (Or.inr (by rw [List.any_eq_true]; exact ⟨r, hr, hlow⟩))

/-- Witness for C4: a middle-level learner at Period 2 whose single resolved
subject scored 49 is held. -/
theorem held_on_missing_or_failing_witness :
    resolveSubjects (ensureReferenceData ⟨[⟨1, some LevelCode.moteseta, none, some 2⟩],
        [⟨1, some 49⟩], [], []⟩) ⟨some LevelCode.moteseta, none, [], [2], false⟩ =
      some (LevelCode.moteseta, 2, [⟨1, some LevelCode.moteseta, none, some 2⟩]) ∧
    autoPromoteStudent ⟨[⟨1, some LevelCode.moteseta, none, some 2⟩], [⟨1, some 49⟩], [], []⟩
        ⟨some LevelCode.moteseta, none, [], [2], false⟩ =
      (Outcome.noAction, ⟨some LevelCode.moteseta, none, [], [2], false⟩,
        ensureReferenceData ⟨[⟨1, some LevelCode.moteseta, none, some 2⟩],
          [⟨1, some 49⟩], [], []⟩) ∧
    isFailingScore ⟨0, some 49⟩ = true ∧ isFailingScore ⟨0, some 50⟩ = false :=
  ⟨by decide,
    held_on_missing_or_failing ⟨[⟨1, some LevelCode.moteseta, none, some 2⟩],
        [⟨1, some 49⟩], [], []⟩ ⟨some LevelCode.moteseta, none, [], [2], false⟩
      LevelCode.moteseta 2 [⟨1, some LevelCode.moteseta, none, some 2⟩]
      (by decide) (by decide) (Or.inr (Or.inr (by decide)))⟩

/-- C5: a learner at the level's terminal ceiling (semester ordinal >= 4 for
the upper level, period ordinal >= 6 otherwise) with a non-empty resolved
subject set, a score row for every resolved subject, and all scores >= 50
graduates: the flag is set true and the term markers are left untouched. -/
theorem graduated_at_ceiling (e : Env) (st : Student) (lv : LevelCode)
    (cur : Int) (subs : List Subject)
    (hg : st.is_graduated = false)
    (hres : resolveSubjects (ensureReferenceData e) st = some (lv, cur, subs))
    (hne : subs ≠ [])
    (hsubnd : (subs.map Subject.id).Nodup)
    (hcomplete : subs.all (hasRecord e) = true)
    (hpass : (scoresOn e subs).all passingScore = true)
    (hceil : (lv = LevelCode.aali ∧ 4 ≤ cur) ∨ (lv ≠ LevelCode.aali ∧ 6 ≤ cur)) :
    autoPromoteStudent e st =
      (Outcome.graduated, { st with is_graduated := true }, ensureReferenceData e) := by
  have hE : scoresOn (ensureReferenceData e) subs = scoresOn e subs := rfl
  have hlen := complete_length e subs hsubnd hcomplete
  obtain ⟨hN, hF⟩ := passes_checks e subs hpass
  have hemp : subs.isEmpty = false := by
    cases subs with
    | nil => exact absurd rfl hne
    | cons a l => rfl
  simp only [autoPromoteStudent, hres, hg, hE]
  rw [if_neg (by simp)]
  rw [if_neg (by simp [hemp])]
  rw [if_neg (by omega)]
  rw [if_neg (by simp [hN])]
  rw [if_neg (by simp [hF])]
  rcases hceil with ⟨rfl, hc⟩ | ⟨hlvne, hc⟩
  · simp only []
    rw [if_pos hc]
  · cases lv with
    | aali => exact absurd rfl hlvne
    | moteseta =>
      simp only []
      rw [if_pos hc]
    | ebtedai =>
      simp only []
      rw [if_pos hc]

/-- Witness for C5: a lower-level learner at Period 6 with a single subject
scored exactly 50 graduates (also exercising the pass boundary). -/
theorem graduated_at_ceiling_witness :
    autoPromoteStudent ⟨[⟨1, some LevelCode.ebtedai, none, some 6⟩], [⟨1, some 50⟩], [], []⟩
        ⟨some LevelCode.ebtedai, none, [], [6], false⟩ =
      (Outcome.graduated, ⟨some LevelCode.ebtedai, none, [], [6], true⟩,
        ensureReferenceData ⟨[⟨1, some LevelCode.ebtedai, none, some 6⟩],
          [⟨1, some 50⟩], [], []⟩) :=
  graduated_at_ceiling ⟨[⟨1, some LevelCode.ebtedai, none, some 6⟩], [⟨1, some 50⟩], [], []⟩
    ⟨some LevelCode.ebtedai, none, [], [6], false⟩ LevelCode.ebtedai 6
    [⟨1, some LevelCode.ebtedai, none, some 6⟩]
    (by decide) (by decide) (by decide) (by decide) (by decide) (by decide)
    (Or.inr ⟨by decide, by decide⟩)

/-- C6: a learner below the terminal ceiling with a non-empty resolved
subject set, a score row for every resolved subject, and all scores >= 50 is
advanced to ordinal + 1: the next Semester/CoursePeriod row is appended to its
table when absent and becomes the learner's sole marker of that unit type. -/
theorem advanced_below_ceiling (e : Env) (st : Student) (lv : LevelCode)
    (cur : Int) (subs : List Subject)
    (hg : st.is_graduated = false)
    (hres : resolveSubjects (ensureReferenceData e) st = some (lv, cur, subs))
    (hne : subs ≠ [])
    (hsubnd : (subs.map Subject.id).Nodup)
    (hcomplete : subs.all (hasRecord e) = true)
    (hpass : (scoresOn e subs).all passingScore = true)
    (hbelow : (lv = LevelCode.aali → cur < 4) ∧ (lv ≠ LevelCode.aali → cur < 6)) :
    (lv = LevelCode.aali →
      autoPromoteStudent e st =
        (Outcome.advanced (cur + 1),
          { st with semesters := [cur + 1], is_graduated := false },
          { ensureReferenceData e with
            semesterNumbers := addIfMissing (ensureReferenceData e).semesterNumbers (cur + 1) })) ∧
    (lv ≠ LevelCode.aali →
      autoPromoteStudent e st =
        (Outcome.advanced (cur + 1),
          { st with periods := [cur + 1], is_graduated := false },
          { ensureReferenceData e with
            periodNumbers := addIfMissing (ensureReferenceData e).periodNumbers (cur + 1) })) := by
  have hE : scoresOn (ensureReferenceData e) subs = scoresOn e subs := rfl
  have hlen := complete_length e subs hsubnd hcomplete
  obtain ⟨hN, hF⟩ := passes_checks e subs hpass
  have hemp : subs.isEmpty = false := by
    cases subs with
    | nil => exact absurd rfl hne
    | cons a l => rfl
  constructor
  · rintro rfl
    have hc := hbelow.1 rfl
    simp only [autoPromoteStudent, hres, hg, hE]
    rw [if_neg (by simp)]
    rw [if_neg (by simp [hemp])]
    rw [if_neg (by omega)]
    rw [if_neg (by simp [hN])]
    rw [if_neg (by simp [hF])]
    rw [if_neg (by omega)]
  · intro hlvne
    have hc := hbelow.2 hlvne
    simp only [autoPromoteStudent, hres, hg, hE]
    rw [if_neg (by simp)]
    rw [if_neg (by simp [hemp])]
    rw [if_neg (by omega)]
    rw [if_neg (by simp [hN])]
    rw [if_neg (by simp [hF])]
    cases lv with
    | aali => exact absurd rfl hlvne
    | moteseta =>
      rw [if_neg (by omega)]
    | ebtedai =>
      rw [if_neg (by omega)]

/-- Witness for C6: an upper-level learner at Semester 2 with a single
passing subject advances to Semester 3. -/
theorem advanced_below_ceiling_witness :
    (LevelCode.aali = LevelCode.aali →
      autoPromoteStudent ⟨[⟨1, some LevelCode.aali, some 2, none⟩], [⟨1, some 75⟩], [], []⟩
          ⟨some LevelCode.aali, none, [2], [], false⟩ =
        (Outcome.advanced 3, ⟨some LevelCode.aali, none, [3], [], false⟩,
          ⟨[⟨1, some LevelCode.aali, some 2, none⟩], [⟨1, some 75⟩], [1, 2, 3, 4],
            [1, 2, 3, 4, 5, 6]⟩)) ∧
    (LevelCode.aali ≠ LevelCode.aali →
      autoPromoteStudent ⟨[⟨1, some LevelCode.aali, some 2, none⟩], [⟨1, some 75⟩], [], []⟩
          ⟨some LevelCode.aali, none, [2], [], false⟩ =
        (Outcome.advanced 3, ⟨some LevelCode.aali, none, [2], [3], false⟩,
          ⟨[⟨1, some LevelCode.aali, some 2, none⟩], [⟨1, some 75⟩], [1, 2, 3, 4],
            [1, 2, 3, 4, 5, 6]⟩)) :=
  advanced_below_ceiling ⟨[⟨1, some LevelCode.aali, some 2, none⟩], [⟨1, some 75⟩], [], []⟩
    ⟨some LevelCode.aali, none, [2], [], false⟩ LevelCode.aali 2
    [⟨1, some LevelCode.aali, some 2, none⟩]
    (by decide) (by decide) (by decide) (by decide) (by decide) (by decide)
    ⟨fun _ => by decide, fun h => absurd rfl h⟩

/-- C7: an effectively lower-level learner at Period 6 whose period-6
subject set is non-empty, fully graded, and all-passing is promoted by
`student_promote_to_moteseta`: level becomes `moteseta`, the class group is
detached, the graduated flag is cleared, Period 1 (created when absent)
becomes the sole period marker, and all semester markers are cleared. -/
theorem crossover_promotion (e : Env) (st : Student)
    (hlv : baseLevel st = some LevelCode.ebtedai ∨ baseLevel st = none)
    (hper : latestPeriod st = some 6)
    (hne : ebtedaiP6Subjects e ≠ [])
    (hsubnd : ((ebtedaiP6Subjects e).map Subject.id).Nodup)
    (hcomplete : (ebtedaiP6Subjects e).all (hasRecord e) = true)
    (hpass : (scoresOn e (ebtedaiP6Subjects e)).all passingScore = true) :
    studentPromoteToMoteseta e st =
      (true,
        { st with
          level := some LevelCode.moteseta
          school_class := none
          is_graduated := false
          periods := [1]
          semesters := [] },
        { ensureReferenceData e with
          periodNumbers := addIfMissing (ensureReferenceData e).periodNumbers 1 }) := by
  have hlen := complete_length e (ebtedaiP6Subjects e) hsubnd hcomplete
  obtain ⟨hN, hF⟩ := passes_checks e (ebtedaiP6Subjects e) hpass
  have hemp : (ebtedaiP6Subjects e).isEmpty = false := by
    cases h : ebtedaiP6Subjects e with
    | nil => exact absurd h hne
    | cons a l => rfl
  have hgrad : canGraduateEbtedai (ensureReferenceData e) st = (true, some 6) := by
    have hEsub : (ensureReferenceData e).subjects.filter (fun s =>
        s.period == some (6 : Int) &&
          (s.level == some LevelCode.ebtedai || s.level == none)) = ebtedaiP6Subjects e := rfl
    have hEsc : scoresOn (ensureReferenceData e) (ebtedaiP6Subjects e) =
        scoresOn e (ebtedaiP6Subjects e) := rfl
    rcases hlv with hb | hb
    · simp only [canGraduateEbtedai, hb, hper, hEsub, hEsc]
      rw [if_neg (by simp)]
      rw [if_neg (by norm_num)]
      rw [if_neg (by simp [hemp])]
      rw [if_neg (by omega)]
      rw [if_neg (by simp [hN])]
      rw [if_neg (by simp [hF])]
    · simp only [canGraduateEbtedai, hb, hper, hEsub, hEsc]
      rw [if_neg (by simp)]
      rw [if_neg (by norm_num)]
      rw [if_neg (by simp [hemp])]
      rw [if_neg (by omega)]
      rw [if_neg (by simp [hN])]
      rw [if_neg (by simp [hF])]
  simp only [studentPromoteToMoteseta, hgrad]
  rfl

/-- Witness for C7 on a concrete eligible learner. -/
theorem crossover_promotion_witness :
    studentPromoteToMoteseta ⟨[⟨1, some LevelCode.ebtedai, none, some 6⟩], [⟨1, some 80⟩], [], []⟩
        ⟨some LevelCode.ebtedai, none, [], [6], false⟩ =
      (true, ⟨some LevelCode.moteseta, none, [], [1], false⟩,
        ⟨[⟨1, some LevelCode.ebtedai, none, some 6⟩], [⟨1, some 80⟩], [1, 2, 3, 4],
          [1, 2, 3, 4, 5, 6]⟩) :=
  crossover_promotion ⟨[⟨1, some LevelCode.ebtedai, none, some 6⟩], [⟨1, some 80⟩], [], []⟩
    ⟨some LevelCode.ebtedai, none, [], [6], false⟩
    (Or.inl (by decide)) (by decide) (by decide) (by decide) (by decide) (by decide)

end DarololomMIS
